import Mathlib

/-!
Verification of the ping-pong scoring core (include/game.h, include/config.h,
include/display.h).  The repository carries two variants of the game logic:
one whose calculateServingPlayer has a game-point override and a
deuce-advantage override (namespace GameV1 below), and one that uses the
block-rotation formula everywhere (namespace GameV2).  Shared state and
helpers are embedded once; the two serve calculations and the operations
that call them are embedded per variant.  uint8_t fields are modelled as
Nat; the one place where 8-bit overflow can occur (the score increment in
addPoint) carries an explicit % 256.
-/

set_option autoImplicit false

/-! Game-rule constants from include/config.h (21-point classic). -/

def POINTS_TO_WIN : Nat := 21

def SERVE_SWITCH_EVERY : Nat := 5

def DEUCE_SERVE_SWITCH : Nat := 2

def DEUCE_THRESHOLD : Nat := 20

def WIN_BY : Nat := 2

/-- Colors appearing in config.h; CRGB values are abstracted to an enumeration. -/
inductive CRGB where
  | Black
  | Blue
  | Green
  | Yellow
  | OrangeRed
  | Red
  | White
  deriving DecidableEq, Repr

def BG_COLOR : CRGB := CRGB.Black

/-- SCORE_COLORS from config.h: one configured color per band of five points. -/
def SCORE_COLORS : List CRGB :=
  [CRGB.Blue, CRGB.Green, CRGB.Yellow, CRGB.OrangeRed, CRGB.Red]

def NUM_SCORE_COLORS : Nat := SCORE_COLORS.length

/-- GameState enum from include/game.h. -/
inductive GameState where
  | PLAYING
  | SERVE_CHANGE
  | GAME_OVER
  deriving DecidableEq, Repr

/-- The PingPongGame struct from include/game.h.  score[0] and score[1] are
the two uint8_t score cells; animStartTime is the millis() stamp taken when a
transient phase is entered. -/
structure PingPongGame where
  score0 : Nat
  score1 : Nat
  servingPlayer : Nat
  firstServer : Nat
  state : GameState
  animStartTime : Nat
  deriving DecidableEq, Repr

/-- Read of score[p] (p is 0 or 1 at every checked call site). -/
def PingPongGame.score (g : PingPongGame) (p : Nat) : Nat :=
  if p = 0 then g.score0 else g.score1

/-- Write of score[p]. -/
def PingPongGame.setScore (g : PingPongGame) (p v : Nat) : PingPongGame :=
  if p = 0 then { g with score0 := v } else { g with score1 := v }

/-- PingPongGame::reset from include/game.h. -/
def PingPongGame.reset : PingPongGame :=
  { score0 := 0, score1 := 0, servingPlayer := 0, firstServer := 0,
    state := GameState.PLAYING, animStartTime := 0 }

/-- PingPongGame::totalPoints. -/
def PingPongGame.totalPoints (g : PingPongGame) : Nat :=
  g.score0 + g.score1

/-- PingPongGame::isDeuce. -/
def PingPongGame.isDeuce (g : PingPongGame) : Bool :=
  DEUCE_THRESHOLD ≤ g.score0 && DEUCE_THRESHOLD ≤ g.score1

/-- PingPongGame::isGamePoint (present only in the GameV1 variant of game.h). -/
def PingPongGame.isGamePoint (g : PingPongGame) : Bool :=
  !g.isDeuce && (POINTS_TO_WIN - 1 ≤ g.score0 || POINTS_TO_WIN - 1 ≤ g.score1)

/-- One pass of the player loop inside PingPongGame::isGameWon: player p has
score ≥ POINTS_TO_WIN and, when both players reached the deuce threshold,
leads by at least WIN_BY (signed int subtraction in the source). -/
def PingPongGame.winsBy (g : PingPongGame) (p : Nat) : Bool :=
  POINTS_TO_WIN ≤ g.score p &&
    (if DEUCE_THRESHOLD ≤ g.score0 && DEUCE_THRESHOLD ≤ g.score1 then
      decide ((WIN_BY : Int) ≤ (g.score p : Int) - (g.score (1 - p) : Int))
    else true)

/-- PingPongGame::isGameWon: the loop over p = 0, 1. -/
def PingPongGame.isGameWon (g : PingPongGame) : Bool :=
  g.winsBy 0 || g.winsBy 1

/-- PingPongGame::winner: -1 when nobody won, else the higher-scored player. -/
def PingPongGame.winner (g : PingPongGame) : Int :=
  if !g.isGameWon then -1
  else if g.score1 < g.score0 then 0 else 1

/-- ScoreDisplay::colorForPoint from include/display.h: point 0 shows the
background, otherwise the band index (pointNum - 1) / 5 clamped to the last
configured color. -/
def colorForPoint (pointNum : Nat) : CRGB :=
  if pointNum = 0 then BG_COLOR
  else
    let groupIndex := (pointNum - 1) / 5
    let clamped := if NUM_SCORE_COLORS ≤ groupIndex then NUM_SCORE_COLORS - 1 else groupIndex
    SCORE_COLORS.getD clamped BG_COLOR

/-- Serve-rotation formula exactly as spec section 4.1 (and claim C1) words it,
a pure function of the two scores and the first server. -/
def specServingPlayer (s0 s1 firstServer : Nat) : Nat :=
  if DEUCE_THRESHOLD ≤ s0 ∧ DEUCE_THRESHOLD ≤ s1 then
    (firstServer + DEUCE_THRESHOLD * 2 / SERVE_SWITCH_EVERY
        + (s0 + s1 - DEUCE_THRESHOLD * 2) / DEUCE_SERVE_SWITCH) % 2
  else
    (firstServer + (s0 + s1) / SERVE_SWITCH_EVERY) % 2

/-- Convenient constructor for concrete game states (animStartTime 0). -/
def mkGame (s0 s1 sp fs : Nat) (st : GameState) : PingPongGame :=
  { score0 := s0, score1 := s1, servingPlayer := sp, firstServer := fs,
    state := st, animStartTime := 0 }

namespace GameV1

/-- PingPongGame::calculateServingPlayer of the variant with the game-point
and deuce-advantage overrides (display.h lines 501-527). -/
def calculateServingPlayer (g : PingPongGame) : Nat :=
  let total := g.totalPoints
  if !g.isDeuce then
    if g.isGamePoint then
      if POINTS_TO_WIN - 1 ≤ g.score0 then 1 else 0
    else
      let serveBlock := total / SERVE_SWITCH_EVERY
      (g.firstServer + serveBlock) % 2
  else
    if g.score1 < g.score0 then 1
    else if g.score0 < g.score1 then 0
    else
      let pointsBeforeDeuce := DEUCE_THRESHOLD * 2
      let blocksBeforeDeuce := pointsBeforeDeuce / SERVE_SWITCH_EVERY
      let deucePoints := total - pointsBeforeDeuce
      let deuceBlocks := deucePoints / DEUCE_SERVE_SWITCH
      (g.firstServer + blocksBeforeDeuce + deuceBlocks) % 2

/-- PingPongGame::addPoint (display.h lines 530-552); now is the millis()
reading stamped into animStartTime on a phase change. -/
def addPoint (g : PingPongGame) (player now : Nat) : PingPongGame × Bool :=
  if g.state ≠ GameState.PLAYING then (g, false)
  else if 1 < player then (g, false)
  else
    let g1 := g.setScore player ((g.score player + 1) % 256)
    let newServer := calculateServingPlayer g1
    let serveChanged := newServer != g1.servingPlayer
    let g2 := { g1 with servingPlayer := newServer }
    if g2.isGameWon then
      ({ g2 with state := GameState.GAME_OVER, animStartTime := now }, false)
    else if serveChanged then
      ({ g2 with state := GameState.SERVE_CHANGE, animStartTime := now }, true)
    else
      (g2, serveChanged)

/-- PingPongGame::removePoint (display.h lines 555-563). -/
def removePoint (g : PingPongGame) (player : Nat) : PingPongGame :=
  if 1 < player ∨ g.score player = 0 then g
  else
    let g1 := g.setScore player (g.score player - 1)
    let g2 := { g1 with servingPlayer := calculateServingPlayer g1 }
    if g2.state = GameState.GAME_OVER then { g2 with state := GameState.PLAYING }
    else g2

/-- States reachable from reset by addPoint and removePoint calls alone
(the reachability relation named by claim C5). -/
inductive Reachable : PingPongGame → Prop where
  | init : Reachable PingPongGame.reset
  | add (g : PingPongGame) (p now : Nat) :
      Reachable g → Reachable (addPoint g p now).1
  | remove (g : PingPongGame) (p : Nat) :
      Reachable g → Reachable (removePoint g p)

end GameV1

namespace GameV2

/-- PingPongGame::calculateServingPlayer of the variant without overrides
(display.h lines 634-652): the block-rotation formula everywhere. -/
def calculateServingPlayer (g : PingPongGame) : Nat :=
  let total := g.totalPoints
  if !g.isDeuce then
    let serveBlock := total / SERVE_SWITCH_EVERY
    (g.firstServer + serveBlock) % 2
  else
    let pointsBeforeDeuce := DEUCE_THRESHOLD * 2
    let blocksBeforeDeuce := pointsBeforeDeuce / SERVE_SWITCH_EVERY
    let deucePoints := total - pointsBeforeDeuce
    let deuceBlocks := deucePoints / DEUCE_SERVE_SWITCH
    (g.firstServer + blocksBeforeDeuce + deuceBlocks) % 2

/-- PingPongGame::addPoint of the second variant (display.h lines 655-677);
textually identical to GameV1.addPoint but calling this variant's serve
calculation. -/
def addPoint (g : PingPongGame) (player now : Nat) : PingPongGame × Bool :=
  if g.state ≠ GameState.PLAYING then (g, false)
  else if 1 < player then (g, false)
  else
    let g1 := g.setScore player ((g.score player + 1) % 256)
    let newServer := calculateServingPlayer g1
    let serveChanged := newServer != g1.servingPlayer
    let g2 := { g1 with servingPlayer := newServer }
    if g2.isGameWon then
      ({ g2 with state := GameState.GAME_OVER, animStartTime := now }, false)
    else if serveChanged then
      ({ g2 with state := GameState.SERVE_CHANGE, animStartTime := now }, true)
    else
      (g2, serveChanged)

/-- PingPongGame::removePoint of the second variant (display.h lines 680-688). -/
def removePoint (g : PingPongGame) (player : Nat) : PingPongGame :=
  if 1 < player ∨ g.score player = 0 then g
  else
    let g1 := g.setScore player (g.score player - 1)
    let g2 := { g1 with servingPlayer := calculateServingPlayer g1 }
    if g2.state = GameState.GAME_OVER then { g2 with state := GameState.PLAYING }
    else g2

end GameV2

/-- The win condition holds for exactly one of the two players (the right-hand
side of the claim C5 invariant). -/
def ExactlyOneWinner (g : PingPongGame) : Prop :=
  (g.winsBy 0 = true ∧ g.winsBy 1 = false) ∨
  (g.winsBy 0 = false ∧ g.winsBy 1 = true)

/-- Invariant maintained by reset, addPoint and removePoint of the GameV1
variant: the first server stays 0, at most five points are ever on the board
(the serve change at total 5 parks the machine in SERVE_CHANGE, which addPoint
treats as a no-op), the machine is never in GAME_OVER, and while PLAYING the
serve is the recomputed one. -/
def GameInv (g : PingPongGame) : Prop :=
  g.firstServer = 0 ∧ g.score0 + g.score1 ≤ 5 ∧ g.state ≠ GameState.GAME_OVER ∧
    (g.state = GameState.PLAYING → g.score0 + g.score1 ≤ 4 ∧ g.servingPlayer = 0)

lemma score_fst (g : PingPongGame) : g.score 0 = g.score0 := rfl

lemma score_snd (g : PingPongGame) : g.score 1 = g.score1 := rfl

lemma isGameWon_set_serving (g : PingPongGame) (x : Nat) :
    ({ g with servingPlayer := x } : PingPongGame).isGameWon = g.isGameWon := rfl

/-- isGameWon in arithmetic normal form. -/
lemma isGameWon_iff (g : PingPongGame) :
    g.isGameWon = true ↔
      ((POINTS_TO_WIN ≤ g.score0 ∧
          (DEUCE_THRESHOLD ≤ g.score0 ∧ DEUCE_THRESHOLD ≤ g.score1 →
            g.score1 + WIN_BY ≤ g.score0)) ∨
       (POINTS_TO_WIN ≤ g.score1 ∧
          (DEUCE_THRESHOLD ≤ g.score0 ∧ DEUCE_THRESHOLD ≤ g.score1 →
            g.score0 + WIN_BY ≤ g.score1))) := by
  obtain ⟨a, b, sp, fs, st, t⟩ := g
  simp only [PingPongGame.isGameWon, PingPongGame.winsBy, score_fst, score_snd,
    PingPongGame.score, POINTS_TO_WIN, DEUCE_THRESHOLD, WIN_BY]
  by_cases h0 : 20 ≤ a <;> by_cases h1 : 20 ≤ b <;> simp [h0, h1] <;> omega

/-- Claim C1 (counterexample): in the GameV1 variant the claimed pure block
formula is not what calculateServingPlayer returns: at score = [20, 0] with
firstServer = 0 the game-point override serves the trailing player (1), while
the claimed formula gives (0 + 20 / 5) % 2 = 0. -/
theorem claimC1_counterexample :
    GameV1.calculateServingPlayer (mkGame 20 0 0 0 GameState.PLAYING) ≠
      specServingPlayer 20 0 0 := by decide

/-- Outside the GameV1 overrides (game point; deuce with unequal scores) both
variants compute the spec section 4.1 block formula. -/
lemma calc_no_override (g : PingPongGame)
    (hgp : g.isGamePoint = false)
    (htie : g.isDeuce = true → g.score0 = g.score1) :
    GameV1.calculateServingPlayer g = specServingPlayer g.score0 g.score1 g.firstServer ∧
    GameV2.calculateServingPlayer g = specServingPlayer g.score0 g.score1 g.firstServer := by
  obtain ⟨a, b, sp, fs, st, t⟩ := g
  by_cases h0 : 20 ≤ a <;> by_cases h1 : 20 ≤ b
  · -- deuce: the tie hypothesis removes the advantage branches
    have hab : a = b := by
      apply htie
      simp [PingPongGame.isDeuce, DEUCE_THRESHOLD, h0, h1]
    have hba : ¬ b < a := by omega
    have hab2 : ¬ a < b := by omega
    constructor <;>
      simp [GameV1.calculateServingPlayer, GameV2.calculateServingPlayer,
        specServingPlayer, PingPongGame.isDeuce, PingPongGame.totalPoints,
        DEUCE_THRESHOLD, h0, h1, hba, hab2]
  · -- score0 at game point without deuce: contradicts hgp
    exfalso
    simp [PingPongGame.isGamePoint, PingPongGame.isDeuce, POINTS_TO_WIN,
      DEUCE_THRESHOLD, h0, h1] at hgp
  · -- score1 at game point without deuce: contradicts hgp
    exfalso
    simp [PingPongGame.isGamePoint, PingPongGame.isDeuce, POINTS_TO_WIN,
      DEUCE_THRESHOLD, h0, h1] at hgp
  · -- ordinary play: both variants are the non-deuce block formula
    constructor <;>
      simp [GameV1.calculateServingPlayer, GameV2.calculateServingPlayer,
        specServingPlayer, PingPongGame.isDeuce, PingPongGame.isGamePoint,
        PingPongGame.totalPoints, POINTS_TO_WIN, DEUCE_THRESHOLD, h0, h1]

/-- The GameV2 variant computes the spec section 4.1 block formula for every
state, with no side condition. -/
lemma calcV2_spec (g : PingPongGame) :
    GameV2.calculateServingPlayer g =
      specServingPlayer g.score0 g.score1 g.firstServer := by
  obtain ⟨a, b, sp, fs, st, t⟩ := g
  by_cases h0 : 20 ≤ a <;> by_cases h1 : 20 ≤ b <;>
    simp [GameV2.calculateServingPlayer, specServingPlayer, PingPongGame.isDeuce,
      PingPongGame.totalPoints, DEUCE_THRESHOLD, h0, h1]

/-- Claim C1 (amended): the block formula of spec section 4.1 is exactly what
the GameV2 variant computes, for all scores and firstServer unconditionally;
the GameV1 variant computes it whenever neither of its overrides applies,
i.e. outside game point and, in deuce, only at tied scores. -/
theorem claimC1 (g : PingPongGame) :
    GameV2.calculateServingPlayer g =
      specServingPlayer g.score0 g.score1 g.firstServer ∧
    (g.isGamePoint = false → (g.isDeuce = true → g.score0 = g.score1) →
      GameV1.calculateServingPlayer g =
        specServingPlayer g.score0 g.score1 g.firstServer) :=
  ⟨calcV2_spec g, fun hgp htie => (calc_no_override g hgp htie).1⟩

/-- Claim C2 (counterexample): in the GameV2 variant at score = [21, 20] with
firstServer = 0 the deuce block formula yields (0 + 8 + 0) % 2 = 0, not the
claimed 1. -/
theorem claimC2_counterexample :
    GameV2.calculateServingPlayer (mkGame 21 20 0 0 GameState.PLAYING) ≠ 1 := by
  decide

/-- Claim C2 (amended): at score = [21, 20] the GameV1 variant returns 1 (the
trailing player, by the deuce-advantage override) for either firstServer,
while the GameV2 variant returns firstServer itself. -/
theorem claimC2 (g : PingPongGame)
    (h0 : g.score0 = 21) (h1 : g.score1 = 20) (hf : g.firstServer ≤ 1) :
    GameV1.calculateServingPlayer g = 1 ∧
    GameV2.calculateServingPlayer g = g.firstServer := by
  obtain ⟨a, b, sp, fs, st, t⟩ := g
  simp only at h0 h1 hf
  subst h0 h1
  constructor
  · simp [GameV1.calculateServingPlayer, PingPongGame.isDeuce, DEUCE_THRESHOLD]
  · simp [GameV2.calculateServingPlayer, PingPongGame.isDeuce,
      PingPongGame.totalPoints, DEUCE_THRESHOLD, SERVE_SWITCH_EVERY,
      DEUCE_SERVE_SWITCH]
    omega

/-- Claim C2 witness: the amended statement applied at score = [21, 20],
firstServer = 0 (GameV1 serves player 1, GameV2 serves player 0). -/
theorem claimC2_witness :
    GameV1.calculateServingPlayer (mkGame 21 20 0 0 GameState.PLAYING) = 1 ∧
    GameV2.calculateServingPlayer (mkGame 21 20 0 0 GameState.PLAYING) =
      (mkGame 21 20 0 0 GameState.PLAYING).firstServer :=
  claimC2 (mkGame 21 20 0 0 GameState.PLAYING) (by decide) (by decide) (by decide)

/-- Claim C3: with the default configuration, isGameWon holds iff some player
has at least 21 points and, when both players have reached 20, leads by at
least 2; in particular [21, 20] is not won, [22, 20] is won by player 0. -/
theorem claimC3 :
    (∀ g : PingPongGame,
      g.isGameWon = true ↔
        ((POINTS_TO_WIN ≤ g.score0 ∧
            (DEUCE_THRESHOLD ≤ g.score0 ∧ DEUCE_THRESHOLD ≤ g.score1 →
              g.score1 + WIN_BY ≤ g.score0)) ∨
         (POINTS_TO_WIN ≤ g.score1 ∧
            (DEUCE_THRESHOLD ≤ g.score0 ∧ DEUCE_THRESHOLD ≤ g.score1 →
              g.score0 + WIN_BY ≤ g.score1)))) ∧
    (mkGame 21 20 0 0 GameState.PLAYING).isGameWon = false ∧
    (mkGame 22 20 0 0 GameState.PLAYING).isGameWon = true ∧
    (mkGame 22 20 0 0 GameState.PLAYING).winner = 0 :=
  ⟨isGameWon_iff, by decide, by decide, by decide⟩

/-- Claim C4: from a Playing state with a valid player, when the incremented
score satisfies the win condition, addPoint (in both variants) moves to
GAME_OVER, stamps the entry time, and reports no serve change — it never
enters SERVE_CHANGE on that call. -/
theorem claimC4 (g : PingPongGame) (p now : Nat)
    (hst : g.state = GameState.PLAYING) (hp : p ≤ 1)
    (hwin : (g.setScore p ((g.score p + 1) % 256)).isGameWon = true) :
    ((GameV1.addPoint g p now).1.state = GameState.GAME_OVER ∧
      (GameV1.addPoint g p now).1.animStartTime = now ∧
      (GameV1.addPoint g p now).2 = false) ∧
    ((GameV2.addPoint g p now).1.state = GameState.GAME_OVER ∧
      (GameV2.addPoint g p now).1.animStartTime = now ∧
      (GameV2.addPoint g p now).2 = false) := by
  have hp2 : ¬ 1 < p := by omega
  constructor <;>
    simp [GameV1.addPoint, GameV2.addPoint, hst, hp2, isGameWon_set_serving, hwin]

/-- Claim C4 witness: at score = [21, 20] in Playing, a point for player 0
reaches [22, 20] (a win) and GAME_OVER is entered at once. -/
theorem claimC4_witness :
    ((GameV1.addPoint (mkGame 21 20 0 0 GameState.PLAYING) 0 5).1.state =
        GameState.GAME_OVER ∧
      (GameV1.addPoint (mkGame 21 20 0 0 GameState.PLAYING) 0 5).1.animStartTime = 5 ∧
      (GameV1.addPoint (mkGame 21 20 0 0 GameState.PLAYING) 0 5).2 = false) ∧
    ((GameV2.addPoint (mkGame 21 20 0 0 GameState.PLAYING) 0 5).1.state =
        GameState.GAME_OVER ∧
      (GameV2.addPoint (mkGame 21 20 0 0 GameState.PLAYING) 0 5).1.animStartTime = 5 ∧
      (GameV2.addPoint (mkGame 21 20 0 0 GameState.PLAYING) 0 5).2 = false) :=
  claimC4 (mkGame 21 20 0 0 GameState.PLAYING) 0 5 (by decide) (by decide) (by decide)

/-- Claim C7: addPoint is a strict no-op returning "no serve change" whenever
the phase is not Playing or the player index is out of range, in both
variants. -/
theorem claimC7 (g : PingPongGame) (p now : Nat)
    (h : g.state ≠ GameState.PLAYING ∨ 1 < p) :
    GameV1.addPoint g p now = (g, false) ∧ GameV2.addPoint g p now = (g, false) := by
  rcases h with h | h <;>
    constructor <;>
      simp [GameV1.addPoint, GameV2.addPoint, h]

/-- Claim C7 witness: adding a point during GAME_OVER changes nothing. -/
theorem claimC7_witness :
    GameV1.addPoint (mkGame 0 0 0 0 GameState.GAME_OVER) 0 3 =
      (mkGame 0 0 0 0 GameState.GAME_OVER, false) ∧
    GameV2.addPoint (mkGame 0 0 0 0 GameState.GAME_OVER) 0 3 =
      (mkGame 0 0 0 0 GameState.GAME_OVER, false) :=
  claimC7 (mkGame 0 0 0 0 GameState.GAME_OVER) 0 3 (Or.inl (by decide))

/-- Claim C8: colorForPoint maps point 0 to the background and point n ≥ 1 to
the band color of index min ((n - 1) / 5, NUM_SCORE_COLORS - 1); point 7 gets
the second configured color and point 24 the last (saturated) one. -/
theorem claimC8 :
    (∀ n : Nat, 1 ≤ n →
      colorForPoint n =
        SCORE_COLORS.getD (min ((n - 1) / 5) (NUM_SCORE_COLORS - 1)) BG_COLOR) ∧
    colorForPoint 0 = BG_COLOR ∧
    colorForPoint 7 = SCORE_COLORS.getD 1 BG_COLOR ∧
    colorForPoint 24 = SCORE_COLORS.getD (NUM_SCORE_COLORS - 1) BG_COLOR := by
  refine ⟨fun n hn => ?_, by decide, by decide, by decide⟩
  have hn0 : ¬ n = 0 := by omega
  simp only [colorForPoint, hn0, if_false, NUM_SCORE_COLORS, SCORE_COLORS,
    List.length_cons, List.length_nil]
  rcases le_or_lt 5 ((n - 1) / 5) with h | h
  · rw [if_pos (by omega), min_eq_right (by omega)]
  · rw [if_neg (by omega), min_eq_left (by omega)]

/-- Claim C9: in the GameV1 variant the serve overrides are exactly: at game
point (no deuce) the trailing player serves — 1 when player 0 is at game
point, else 0; in deuce with unequal scores the player with the lower score
serves; outside these two cases the block formula applies. -/
theorem claimC9 (g : PingPongGame) :
    (g.isDeuce = false → g.isGamePoint = true →
      GameV1.calculateServingPlayer g =
        if POINTS_TO_WIN - 1 ≤ g.score0 then 1 else 0) ∧
    (g.isDeuce = true → g.score0 ≠ g.score1 →
      GameV1.calculateServingPlayer g = if g.score0 < g.score1 then 0 else 1) ∧
    (g.isGamePoint = false → (g.isDeuce = true → g.score0 = g.score1) →
      GameV1.calculateServingPlayer g =
        specServingPlayer g.score0 g.score1 g.firstServer) := by
  refine ⟨?_, ?_, ?_⟩
  · intro hd hgp
    simp [GameV1.calculateServingPlayer, hd, hgp]
  · intro hd hne
    rcases Nat.lt_trichotomy g.score0 g.score1 with h | h | h
    · simp [GameV1.calculateServingPlayer, hd, h, Nat.lt_asymm h]
    · exact absurd h hne
    · simp [GameV1.calculateServingPlayer, hd, h, Nat.lt_asymm h]
  · intro hgp htie
    exact (calc_no_override g hgp htie).1

/-- Claim C10: scores are 8-bit; from any Playing state where score[p] is 255,
addPoint wraps score[p] to 0 (so the score strictly decreases). -/
theorem claimC10 (g : PingPongGame) (p now : Nat)
    (hst : g.state = GameState.PLAYING) (hp : p ≤ 1) (hs : g.score p = 255) :
    (GameV1.addPoint g p now).1.score p = 0 ∧
    (GameV1.addPoint g p now).1.score p < g.score p := by
  have key : (GameV1.addPoint g p now).1.score p = 0 := by
    obtain ⟨a, b, sp, fs, st, t⟩ := g
    rcases Nat.le_one_iff_eq_zero_or_eq_one.mp hp with rfl | rfl <;>
      simp [PingPongGame.score] at hs <;>
      subst hs <;>
      simp [GameV1.addPoint, hst, PingPongGame.setScore, PingPongGame.score] <;>
      split_ifs <;>
      simp [PingPongGame.score]
  exact ⟨key, by omega⟩

/-- Claim C10 witness: at score = [255, 0] a point for player 0 wraps the
score to 0. -/
theorem claimC10_witness :
    (GameV1.addPoint (mkGame 255 0 1 0 GameState.PLAYING) 0 7).1.score 0 = 0 ∧
    (GameV1.addPoint (mkGame 255 0 1 0 GameState.PLAYING) 0 7).1.score 0 <
      (mkGame 255 0 1 0 GameState.PLAYING).score 0 :=
  claimC10 (mkGame 255 0 1 0 GameState.PLAYING) 0 7 (by decide) (by decide) (by decide)

/-- calculateServingPlayer reads only the two scores and firstServer; the
other fields are irrelevant (GameV1 variant). -/
lemma calc_fields (a b sp sp' fs : Nat) (st st' : GameState) (t t' : Nat) :
    GameV1.calculateServingPlayer ⟨a, b, sp, fs, st, t⟩ =
      GameV1.calculateServingPlayer ⟨a, b, sp', fs, st', t'⟩ := rfl

/-- Claim C6 (counterexample): the round trip does not always restore the
score.  At score = [255, 0] (a consistent Playing state) addPoint wraps
score[0] to 0 and the subsequent removePoint is a no-op on a zero score, so
the prior score 255 is lost. -/
theorem claimC6_counterexample :
    (GameV1.removePoint
        (GameV1.addPoint (mkGame 255 0 1 0 GameState.PLAYING) 0 7).1 0).score0 ≠
      255 := by decide

/-- Claim C6 (amended): from a Playing state whose serve is consistent with
calculateServingPlayer and whose score[p] is below 255 (no 8-bit wrap),
addPoint p followed by removePoint p restores both scores and the serving
player. -/
theorem claimC6 (g : PingPongGame) (p now : Nat)
    (hst : g.state = GameState.PLAYING) (hp : p ≤ 1)
    (hlt : g.score p < 255)
    (hsp : g.servingPlayer = GameV1.calculateServingPlayer g) :
    (GameV1.removePoint (GameV1.addPoint g p now).1 p).score0 = g.score0 ∧
    (GameV1.removePoint (GameV1.addPoint g p now).1 p).score1 = g.score1 ∧
    (GameV1.removePoint (GameV1.addPoint g p now).1 p).servingPlayer =
      g.servingPlayer := by
  obtain ⟨a, b, sp, fs, st, t⟩ := g
  simp only at hst hsp
  subst hst
  have hserve : ∀ (x : Nat) (st2 : GameState) (t2 : Nat),
      GameV1.calculateServingPlayer ⟨a, b, x, fs, st2, t2⟩ = sp :=
    fun x st2 t2 =>
      (calc_fields a b x sp fs st2 GameState.PLAYING t2 t).trans hsp.symm
  clear hsp
  rcases Nat.le_one_iff_eq_zero_or_eq_one.mp hp with rfl | rfl
  · simp [PingPongGame.score] at hlt
    simp [GameV1.addPoint, GameV1.removePoint, PingPongGame.setScore,
      PingPongGame.score, Nat.mod_eq_of_lt (by omega : a + 1 < 256)]
    split_ifs <;> simp_all [PingPongGame.score]
  · simp [PingPongGame.score] at hlt
    simp [GameV1.addPoint, GameV1.removePoint, PingPongGame.setScore,
      PingPongGame.score, Nat.mod_eq_of_lt (by omega : b + 1 < 256)]
    split_ifs <;> simp_all [PingPongGame.score]

/-- Claim C6 witness: the amended round trip at score = [3, 0] (serve
consistent, no wrap). -/
theorem claimC6_witness :
    (GameV1.removePoint
        (GameV1.addPoint (mkGame 3 0 0 0 GameState.PLAYING) 0 4).1 0).score0 =
      (mkGame 3 0 0 0 GameState.PLAYING).score0 ∧
    (GameV1.removePoint
        (GameV1.addPoint (mkGame 3 0 0 0 GameState.PLAYING) 0 4).1 0).score1 =
      (mkGame 3 0 0 0 GameState.PLAYING).score1 ∧
    (GameV1.removePoint
        (GameV1.addPoint (mkGame 3 0 0 0 GameState.PLAYING) 0 4).1 0).servingPlayer =
      (mkGame 3 0 0 0 GameState.PLAYING).servingPlayer :=
  claimC6 (mkGame 3 0 0 0 GameState.PLAYING) 0 4 (by decide) (by decide) (by decide)
    (by decide)

/-- Below the deuce threshold neither override of the GameV1 serve
calculation fires: the block formula applies. -/
lemma calc_small (g : PingPongGame)
    (h0 : g.score0 < DEUCE_THRESHOLD) (h1 : g.score1 < DEUCE_THRESHOLD) :
    GameV1.calculateServingPlayer g =
      (g.firstServer + (g.score0 + g.score1) / SERVE_SWITCH_EVERY) % 2 := by
  obtain ⟨a, b, sp, fs, st, t⟩ := g
  simp only [DEUCE_THRESHOLD] at h0 h1
  simp [GameV1.calculateServingPlayer, PingPongGame.isDeuce,
    PingPongGame.isGamePoint, PingPongGame.totalPoints, POINTS_TO_WIN,
    DEUCE_THRESHOLD, Nat.not_le.mpr h0, Nat.not_le.mpr h1]

/-- Nobody has won while both scores are below POINTS_TO_WIN. -/
lemma isGameWon_small (g : PingPongGame)
    (h0 : g.score0 < POINTS_TO_WIN) (h1 : g.score1 < POINTS_TO_WIN) :
    g.isGameWon = false := by
  cases hw : g.isGameWon
  · rfl
  · exfalso
    have := (isGameWon_iff g).mp hw
    simp only [POINTS_TO_WIN] at h0 h1 this
    omega

/-- GameV1.addPoint preserves the reachability invariant. -/
lemma inv_addPoint (g : PingPongGame) (p now : Nat) (h : GameInv g) :
    GameInv (GameV1.addPoint g p now).1 := by
  obtain ⟨a, b, sp, fs, st, t⟩ := g
  obtain ⟨hfs, htot, hgo, hpl⟩ := h
  simp only at hfs htot hgo hpl
  subst hfs
  cases st
  case SERVE_CHANGE =>
    have hred :
        (GameV1.addPoint ⟨a, b, sp, 0, GameState.SERVE_CHANGE, t⟩ p now).1 =
          ⟨a, b, sp, 0, GameState.SERVE_CHANGE, t⟩ := rfl
    rw [hred]
    exact ⟨rfl, htot, by simp, by simp⟩
  case GAME_OVER => exact absurd rfl hgo
  case PLAYING =>
    obtain ⟨htot4, hsp⟩ := hpl rfl
    subst hsp
    by_cases hp : 1 < p
    · simp [GameV1.addPoint, hp, GameInv]
      omega
    · rcases Nat.le_one_iff_eq_zero_or_eq_one.mp (by omega : p ≤ 1) with rfl | rfl <;>
      · have ha : a ≤ 4 := by omega
        have hb : b ≤ 4 := by omega
        interval_cases a <;> interval_cases b <;>
          simp_all [GameV1.addPoint, GameInv, PingPongGame.setScore,
            PingPongGame.score, GameV1.calculateServingPlayer,
            PingPongGame.isDeuce, PingPongGame.isGamePoint,
            PingPongGame.totalPoints, PingPongGame.isGameWon,
            PingPongGame.winsBy, POINTS_TO_WIN, DEUCE_THRESHOLD,
            SERVE_SWITCH_EVERY, DEUCE_SERVE_SWITCH, WIN_BY]

/-- GameV1.removePoint preserves the reachability invariant. -/
lemma inv_removePoint (g : PingPongGame) (p : Nat) (h : GameInv g) :
    GameInv (GameV1.removePoint g p) := by
  obtain ⟨a, b, sp, fs, st, t⟩ := g
  obtain ⟨hfs, htot, hgo, hpl⟩ := h
  simp only at hfs htot hgo hpl
  subst hfs
  by_cases hp : 1 < p
  · simpa [GameV1.removePoint, hp, GameInv] using ⟨htot, hgo, hpl⟩
  · rcases Nat.le_one_iff_eq_zero_or_eq_one.mp (by omega : p ≤ 1) with rfl | rfl <;>
      cases st
    · obtain ⟨htot4, hsp⟩ := hpl rfl
      subst hsp
      have ha : a ≤ 4 := by omega
      have hb : b ≤ 4 := by omega
      interval_cases a <;> interval_cases b <;>
        simp_all [GameV1.removePoint, GameInv, PingPongGame.setScore,
          PingPongGame.score, GameV1.calculateServingPlayer,
          PingPongGame.isDeuce, PingPongGame.isGamePoint,
          PingPongGame.totalPoints, POINTS_TO_WIN, DEUCE_THRESHOLD,
          SERVE_SWITCH_EVERY, DEUCE_SERVE_SWITCH]
    · have ha : a ≤ 5 := by omega
      have hb : b ≤ 5 := by omega
      interval_cases a <;> interval_cases b <;>
        simp_all [GameV1.removePoint, GameInv, PingPongGame.setScore,
          PingPongGame.score, GameV1.calculateServingPlayer,
          PingPongGame.isDeuce, PingPongGame.isGamePoint,
          PingPongGame.totalPoints, POINTS_TO_WIN, DEUCE_THRESHOLD,
          SERVE_SWITCH_EVERY, DEUCE_SERVE_SWITCH]
    · exact absurd rfl hgo
    · obtain ⟨htot4, hsp⟩ := hpl rfl
      subst hsp
      have ha : a ≤ 4 := by omega
      have hb : b ≤ 4 := by omega
      interval_cases a <;> interval_cases b <;>
        simp_all [GameV1.removePoint, GameInv, PingPongGame.setScore,
          PingPongGame.score, GameV1.calculateServingPlayer,
          PingPongGame.isDeuce, PingPongGame.isGamePoint,
          PingPongGame.totalPoints, POINTS_TO_WIN, DEUCE_THRESHOLD,
          SERVE_SWITCH_EVERY, DEUCE_SERVE_SWITCH]
    · have ha : a ≤ 5 := by omega
      have hb : b ≤ 5 := by omega
      interval_cases a <;> interval_cases b <;>
        simp_all [GameV1.removePoint, GameInv, PingPongGame.setScore,
          PingPongGame.score, GameV1.calculateServingPlayer,
          PingPongGame.isDeuce, PingPongGame.isGamePoint,
          PingPongGame.totalPoints, POINTS_TO_WIN, DEUCE_THRESHOLD,
          SERVE_SWITCH_EVERY, DEUCE_SERVE_SWITCH]
    · exact absurd rfl hgo

/-- Every state reachable by addPoint/removePoint from reset satisfies the
invariant. -/
lemma reachable_inv (g : PingPongGame) (h : GameV1.Reachable g) : GameInv g := by
  induction h with
  | init =>
      exact ⟨rfl, by simp [PingPongGame.reset], by simp [PingPongGame.reset],
        fun _ => ⟨by simp [PingPongGame.reset], rfl⟩⟩
  | add g p now _ ih => exact inv_addPoint g p now ih
  | remove g p _ ih => exact inv_removePoint g p ih

/-- Claim C5: in every state reachable from reset by addPoint and removePoint
calls, the phase is GAME_OVER iff the win condition holds for exactly one
player.  (Under these two operations alone GAME_OVER is in fact unreachable:
the serve change at total 5 parks the machine in SERVE_CHANGE, where addPoint
is a no-op, so no score can reach 21 and both sides of the equivalence are
false.) -/
theorem claimC5 (g : PingPongGame) (h : GameV1.Reachable g) :
    g.state = GameState.GAME_OVER ↔ ExactlyOneWinner g := by
  obtain ⟨hfs, htot, hgo, hpl⟩ := reachable_inv g h
  constructor
  · intro hc
    exact absurd hc hgo
  · intro hw
    exfalso
    have hno : g.isGameWon = false :=
      isGameWon_small g (by simp only [POINTS_TO_WIN]; omega)
        (by simp only [POINTS_TO_WIN]; omega)
    have hwon : g.isGameWon = true := by
      rcases hw with ⟨h1, _⟩ | ⟨_, h1⟩ <;> simp [PingPongGame.isGameWon, h1]
    rw [hno] at hwon
    exact Bool.false_ne_true hwon

/-- Claim C5 witness: the invariant applied at the reset state itself. -/
theorem claimC5_witness :
    PingPongGame.reset.state = GameState.GAME_OVER ↔
      ExactlyOneWinner PingPongGame.reset :=
  claimC5 PingPongGame.reset GameV1.Reachable.init
